import Mathlib

/-!
Shallow embedding of the Acts surface-bounds core (`Core/include/Acts/Surfaces`
and `Core/src/Surfaces`): the planar and disc bound value types, their
constructors with construction-time consistency checks, and the query
operations (`inside`, `distanceToBoundary`, `vertices`, accessors).

Doubles are modelled as real numbers; a C++ constructor that can throw is
modelled as a function into `Option`; an enumeration-indexed parameter array
`std::array<double, eSize>` is modelled as `Fin eSize → ℝ`.

The repository holds two generations of `RadialBounds`: the header
`RadialBounds.hpp` (array-backed `m_values`) and the older out-of-line
implementation `RadialBounds.cpp` (fields `m_rMin`, `m_rMax`, `m_avgPhi`,
`m_halfPhi`).  Both are embedded: `RadialBounds` follows the header,
`RadialBoundsCpp` follows the implementation file.
-/

noncomputable section

open Real

namespace ActsSpec

open scoped Classical

/-- A 2D local position, `Acts::Vector2D`. -/
abbrev Vec2 := ℝ × ℝ

/-- Modelled from the spec: the periodic-angle helper `detail::radian_sym`
(`Acts/Utilities/detail/periodic.hpp` is not under `src/`).  Per the spec it
normalizes an angle into a canonical half-open range, e.g. `(-π, π]`, which is
what this definition produces. -/
def radian_sym (x : ℝ) : ℝ := x - 2 * π * (⌈x / (2 * π) - 1 / 2⌉ : ℤ)

/-- Modelled from the spec: the on-surface tolerance constant
`s_onSurfaceTolerance` (its defining header is not under `src/`); the spec
only requires a small positive tolerance, taken here as `1e-4`. -/
def s_onSurfaceTolerance : ℝ := 1e-4

/-- Modelled from the spec: the BoundaryCheck collaborator's
`isInside(point, boxMin, boxMax)` primitive with zero tolerance (the
BoundaryCheck header is not under `src/`): componentwise interval membership
in the axis-aligned box `[lo, hi]`. -/
def bcIsInside (p lo hi : Vec2) : Prop :=
  lo.1 ≤ p.1 ∧ p.1 ≤ hi.1 ∧ lo.2 ≤ p.2 ∧ p.2 ≤ hi.2

/-- Modelled from the spec: the BoundaryCheck collaborator's
`distance(point, boxMin, boxMax)` primitive (header not under `src/`).  Per
the spec it is positive strictly outside (Euclidean distance to the box) and
non-positive on or inside (negative distance to the nearest edge). -/
def bcDistance (p lo hi : Vec2) : ℝ :=
  if bcIsInside p lo hi then
    -(min (min (p.1 - lo.1) (hi.1 - p.1)) (min (p.2 - lo.2) (hi.2 - p.2)))
  else
    Real.sqrt (max (max (lo.1 - p.1) (p.1 - hi.1)) 0 ^ 2 +
               max (max (lo.2 - p.2) (p.2 - hi.2)) 0 ^ 2)

/-- `Acts::RectangleBounds` (RectangleBounds.hpp): an axis-aligned box stored
as its min and max corner. -/
structure RectangleBounds where
  m_min : Vec2
  m_max : Vec2

/-- The conditions under which `RectangleBounds::checkConsistency` does not
throw (RectangleBounds.hpp lines 168-175). -/
def rectCheckOk (lo hi : Vec2) : Prop := ¬ (lo.1 > hi.1) ∧ ¬ (lo.2 > hi.2)

/-- The symmetric half-length constructor `RectangleBounds(halfX, halfY)`. -/
def RectangleBounds.mkHalf (halfX halfY : ℝ) : Option RectangleBounds :=
  if rectCheckOk (-halfX, -halfY) (halfX, halfY) then
    some ⟨(-halfX, -halfY), (halfX, halfY)⟩
  else none

/-- The fixed-size-array constructor `RectangleBounds(std::array<double, 4>)`. -/
def RectangleBounds.mkArray (v : Fin 4 → ℝ) : Option RectangleBounds :=
  if rectCheckOk (v 0, v 1) (v 2, v 3) then some ⟨(v 0, v 1), (v 2, v 3)⟩
  else none

/-- The min/max-corner constructor `RectangleBounds(min, max)`. -/
def RectangleBounds.mkMinMax (lo hi : Vec2) : Option RectangleBounds :=
  if rectCheckOk lo hi then some ⟨lo, hi⟩ else none

/-- `RectangleBounds::values()`: the parameter sequence
`{minX, minY, maxX, maxY}`. -/
def RectangleBounds.valuesArr (b : RectangleBounds) : Fin 4 → ℝ :=
  ![b.m_min.1, b.m_min.2, b.m_max.1, b.m_max.2]

/-- `RectangleBounds::get(bValue)` (RectangleBounds.hpp lines 156-166): a
switch over the int-backed `BoundValues` enumeration returning the min corner
coordinates for `eMinX = 0`, `eMinY = 1`, the max corner x for `eMaxX = 2`,
and falling through to the max corner y for every other index value. -/
def RectangleBounds.get (b : RectangleBounds) (i : ℤ) : ℝ :=
  if i = 0 then b.m_min.1
  else if i = 1 then b.m_min.2
  else if i = 2 then b.m_max.1
  else b.m_max.2

/-- `RectangleBounds::inside`, modelled from the spec for the delegation
target (the implementation file is not under `src/`): a direct 2D interval
membership test through the boundary-check policy. -/
def RectangleBounds.inside (b : RectangleBounds) (p : Vec2) : Prop :=
  bcIsInside p b.m_min b.m_max

/-- `RectangleBounds::distanceToBoundary`, modelled from the spec for the
delegation target (the implementation file is not under `src/`): the signed
distance to the box through the zero-tolerance boundary-check primitive. -/
def RectangleBounds.distanceToBoundary (b : RectangleBounds) (p : Vec2) : ℝ :=
  bcDistance p b.m_min b.m_max

/-- `Acts::RadialBounds` as laid out in RadialBounds.hpp: the parameter array
`m_values` indexed by `eMinR = 0`, `eMaxR = 1`, `eAveragePhi = 2`,
`eHalfPhiSector = 3`. -/
structure RadialBounds where
  m_values : Fin 4 → ℝ

/-- The scalar constructor of RadialBounds.hpp (lines 45-48): it initializes
`m_values` with `{abs(minR), abs(maxR), abs(halfPhi), radian_sym(avgPhi)}`
in that textual order. -/
def RadialBounds.ofScalars (minR maxR halfPhi avgPhi : ℝ) : RadialBounds :=
  ⟨![|minR|, |maxR|, |halfPhi|, radian_sym avgPhi]⟩

/-- The fixed-size-array constructor of RadialBounds.hpp (line 53): stores the
values unchanged. -/
def RadialBounds.mkArray (v : Fin 4 → ℝ) : RadialBounds := ⟨v⟩

/-- `RadialBounds::get`. -/
def RadialBounds.get (b : RadialBounds) (i : Fin 4) : ℝ := b.m_values i

/-- `RadialBounds::rMin()`: reads slot `eMinR = 0`. -/
def RadialBounds.rMin (b : RadialBounds) : ℝ := b.get 0

/-- `RadialBounds::rMax()`: reads slot `eMaxR = 1`. -/
def RadialBounds.rMax (b : RadialBounds) : ℝ := b.get 1

/-- `RadialBounds::coversFullAzimuth()` (RadialBounds.hpp lines 140-142):
exact comparison of slot `eHalfPhiSector = 3` with `M_PI`. -/
def RadialBounds.coversFullAzimuth (b : RadialBounds) : Prop := b.get 3 = π

/-- `RadialBounds::values()`: a copy of `m_values` in order. -/
def RadialBounds.valuesArr (b : RadialBounds) : Fin 4 → ℝ := b.m_values

/-- `Acts::DiamondBounds` (DiamondBounds.hpp): the parameter array `m_values`
indexed by `eHalfLengthXnegY = 0`, `eHalfLengthXzeroY = 1`,
`eHalfLengthXposY = 2`, `eHalfLengthYneg = 3`, `eHalfLengthYpos = 4`, plus
the eagerly cached bounding box. -/
structure DiamondBounds where
  m_values : Fin 5 → ℝ
  m_boundingBox : RectangleBounds

/-- The conditions under which `DiamondBounds::checkConsistency` does not
throw (DiamondBounds.hpp lines 127-137): no negative half length (the
`std::any_of` scan unrolled over the five entries) and neither end half
length in x exceeding the one at `y = 0`. -/
def diamondCheckOk (v : Fin 5 → ℝ) : Prop :=
  ¬ (v 0 < 0 ∨ v 1 < 0 ∨ v 2 < 0 ∨ v 3 < 0 ∨ v 4 < 0) ∧
  ¬ (v 0 > v 1 ∨ v 2 > v 1)

/-- The five-scalar constructor `DiamondBounds(halfXnegY, halfXzeroY,
halfXposY, halfYneg, halfYpos)` (DiamondBounds.hpp lines 46-52): the member
initializer builds the bounding box from the maximum of the first two x half
lengths and the maximum of the two y half lengths (which can itself throw),
then the body runs `checkConsistency()`. -/
def DiamondBounds.mk5 (a b c d e : ℝ) : Option DiamondBounds :=
  (RectangleBounds.mkHalf (max a b) (max d e)).bind fun bb =>
    if diamondCheckOk ![a, b, c, d, e] then some ⟨![a, b, c, d, e], bb⟩
    else none

/-- The fixed-size-array constructor `DiamondBounds(std::array<double, 5>)`
(DiamondBounds.hpp lines 57-61): it builds the bounding box the same way but
its body is empty, so no consistency check runs. -/
def DiamondBounds.mkArray (v : Fin 5 → ℝ) : Option DiamondBounds :=
  (RectangleBounds.mkHalf (max (v 0) (v 1)) (max (v 3) (v 4))).map fun bb =>
    ⟨v, bb⟩

/-- `DiamondBounds::get`. -/
def DiamondBounds.get (b : DiamondBounds) (i : Fin 5) : ℝ := b.m_values i

/-- `DiamondBounds::values()`: a copy of `m_values` in order. -/
def DiamondBounds.valuesArr (b : DiamondBounds) : Fin 5 → ℝ := b.m_values

/-- `Acts::EllipseBounds` (EllipseBounds.hpp): the parameter array `m_values`
indexed by `eMinR0 = 0`, `eMaxR0 = 1`, `eMinR1 = 2`, `eMaxR1 = 3`,
`eHalfPhiSector = 4`, `eAveragePhi = 5`, plus the cached bounding box. -/
structure EllipseBounds where
  m_values : Fin 6 → ℝ
  m_boundingBox : RectangleBounds

/-- The conditions under which `EllipseBounds::checkConsistency` does not
throw (EllipseBounds.hpp lines 131-144): each axis radius pair same-signed
and ordered, the phi half sector in `[0, π]`, and the average phi equal to
its own `radian_sym` image. -/
def ellipseCheckOk (v : Fin 6 → ℝ) : Prop :=
  ¬ (v 0 * v 1 < 0 ∨ v 0 > v 1) ∧
  ¬ (v 2 * v 3 < 0 ∨ v 2 > v 3) ∧
  ¬ (v 4 < 0 ∨ v 4 > π) ∧
  ¬ (v 5 ≠ radian_sym (v 5))

/-- Shared body of both `EllipseBounds` constructors (EllipseBounds.hpp lines
53-66): the member initializer builds the bounding box
`RectangleBounds(values[eMaxR0], values[eMaxR1])` (which can itself throw),
then the body runs `checkConsistency()`. -/
def EllipseBounds.mkVals (v : Fin 6 → ℝ) : Option EllipseBounds :=
  (RectangleBounds.mkHalf (v 1) (v 3)).bind fun bb =>
    if ellipseCheckOk v then some ⟨v, bb⟩ else none

/-- The six-scalar constructor
`EllipseBounds(minR0, maxR0, minR1, maxR1, halfPhi, averagePhi)`. -/
def EllipseBounds.mk6 (a0 a1 a2 a3 a4 a5 : ℝ) : Option EllipseBounds :=
  EllipseBounds.mkVals ![a0, a1, a2, a3, a4, a5]

/-- The fixed-size-array constructor `EllipseBounds(std::array<double, 6>)`. -/
def EllipseBounds.mkArray (v : Fin 6 → ℝ) : Option EllipseBounds :=
  EllipseBounds.mkVals v

/-- `EllipseBounds::get`. -/
def EllipseBounds.get (b : EllipseBounds) (i : Fin 6) : ℝ := b.m_values i

/-- `EllipseBounds::values()`: a copy of `m_values` in order. -/
def EllipseBounds.valuesArr (b : EllipseBounds) : Fin 6 → ℝ := b.m_values

/-- `Acts::DiscTrapezoidBounds` (DiscTrapezoidBounds.hpp): the parameter
array `m_values` indexed by `eHalfLengthXminR = 0`, `eHalfLengthXmaxR = 1`,
`eMinR = 2`, `eMaxR = 3`, `eAveragePhi = 4`, `eStereo = 5`. -/
structure DiscTrapezoidBounds where
  m_values : Fin 6 → ℝ

/-- The fixed-size-array constructor
`DiscTrapezoidBounds(std::array<double, 6>)` (DiscTrapezoidBounds.hpp lines
55-56): stores the values unchanged, no check. -/
def DiscTrapezoidBounds.mkArray (v : Fin 6 → ℝ) : DiscTrapezoidBounds := ⟨v⟩

/-- `DiscTrapezoidBounds::get`. -/
def DiscTrapezoidBounds.get (b : DiscTrapezoidBounds) (i : Fin 6) : ℝ :=
  b.m_values i

/-- `DiscTrapezoidBounds::values()`: a copy of `m_values` in order. -/
def DiscTrapezoidBounds.valuesArr (b : DiscTrapezoidBounds) : Fin 6 → ℝ :=
  b.m_values

/-- `DiscTrapezoidBounds::rCenter()` (DiscTrapezoidBounds.hpp lines 168-176),
local variables exactly as in the source: both `hxmin` and `hxmax` read
`get(eHalfLengthXminR)`. -/
def DiscTrapezoidBounds.rCenter (b : DiscTrapezoidBounds) : ℝ :=
  let rmin := b.get 2
  let rmax := b.get 3
  let hxmin := b.get 0
  let hxmax := b.get 0
  let hmin := Real.sqrt (rmin * rmin - hxmin * hxmin)
  let hmax := Real.sqrt (rmax * rmax - hxmax * hxmax)
  0.5 * (hmin + hmax)

/-- `DiscTrapezoidBounds::halfLengthY()` (DiscTrapezoidBounds.hpp lines
178-186), local variables exactly as in the source: both `hxmin` and `hxmax`
read `get(eHalfLengthXminR)`. -/
def DiscTrapezoidBounds.halfLengthY (b : DiscTrapezoidBounds) : ℝ :=
  let rmin := b.get 2
  let rmax := b.get 3
  let hxmin := b.get 0
  let hxmax := b.get 0
  let hmin := Real.sqrt (rmin * rmin - hxmin * hxmin)
  let hmax := Real.sqrt (rmax * rmax - hxmax * hxmax)
  0.5 * (hmax - hmin)

/-- The older `Acts::RadialBounds` class layout that `RadialBounds.cpp`
implements: scalar fields `m_rMin`, `m_rMax`, `m_avgPhi`, `m_halfPhi`. -/
structure RadialBoundsCpp where
  m_rMin : ℝ
  m_rMax : ℝ
  m_avgPhi : ℝ
  m_halfPhi : ℝ

/-- The four-argument constructor of RadialBounds.cpp (lines 20-25):
`m_rMin = min(minrad, maxrad)`, `m_rMax = max(minrad, maxrad)`,
`m_avgPhi = radian_sym(avephi)`, `m_halfPhi = abs(hphisec)`. -/
def RadialBoundsCpp.mk4 (minrad maxrad avephi hphisec : ℝ) : RadialBoundsCpp :=
  ⟨min minrad maxrad, max minrad maxrad, radian_sym avephi, |hphisec|⟩

/-- `RadialBounds::shifted` (RadialBounds.cpp lines 44-50): keeps the radial
coordinate and renormalizes phi relative to the average phi. -/
def RadialBoundsCpp.shifted (b : RadialBoundsCpp) (p : Vec2) : Vec2 :=
  (p.1, radian_sym (p.2 - b.m_avgPhi))

/-- `RadialBounds::inside` (RadialBounds.cpp lines 52-56) under a
zero-tolerance boundary check: the shifted point tested against the box
`[rMin, rMax] × [-halfPhi, halfPhi]`. -/
def RadialBoundsCpp.inside (b : RadialBoundsCpp) (p : Vec2) : Prop :=
  bcIsInside (b.shifted p) (b.m_rMin, -b.m_halfPhi) (b.m_rMax, b.m_halfPhi)

/-- `RadialBounds::distanceToBoundary` (RadialBounds.cpp lines 58-63): the
distance primitive on the same shifted point and the same box. -/
def RadialBoundsCpp.distanceToBoundary (b : RadialBoundsCpp) (p : Vec2) : ℝ :=
  bcDistance (b.shifted p) (b.m_rMin, -b.m_halfPhi) (b.m_rMax, b.m_halfPhi)

/-- Modelled from the spec: `coversFullAzimuth()` for the older class layout
(its header is not under `src/`); per the spec it is true iff the half phi
sector equals `π` exactly. -/
def RadialBoundsCpp.fullAzimuth (b : RadialBoundsCpp) : Prop := b.m_halfPhi = π

/-- A point on the circle of radius `r` at angle `phi`, as produced for the
tessellation vertices. -/
def arcPoint (r phi : ℝ) : Vec2 := (r * Real.cos phi, r * Real.sin phi)

/-- Modelled from the spec: `detail::VertexHelper::createSegment`
(VertexHelper.hpp is not under `src/`): appends `lseg` points approximating
the arc of radius `r` from `phi1` to `phi2` with uniform angular steps, plus
`addon` further step(s) so that `addon = 1` closes the arc at `phi2`. -/
def createSegment (r phi1 phi2 : ℝ) (lseg addon : ℕ) : List Vec2 :=
  (List.range (lseg + addon)).map fun k =>
    arcPoint r (phi1 + k * ((phi2 - phi1) / lseg))

/-- Modelled from the spec: `detail::VertexHelper::phiSegments(phiMin,
phiMax, phiRefs)` (VertexHelper.hpp is not under `src/`): the ascending list
of phi break values from `phiMin` to `phiMax`, always containing the sector
edges and the given reference angles (the helper's further interior
subdivision at axis intersections is not modelled, the walk over consecutive
break values being what the source file under `src/` contributes). -/
def phiSegments (phiMin phiMax : ℝ) (refs : List ℝ) : List ℝ :=
  phiMin :: (refs ++ [phiMax])

/-- Modelled from the spec: the parameterless overload
`detail::VertexHelper::phiSegments()` covering the full azimuth `[-π, π]`
with breaks at the axis intersections. -/
def phiSegmentsFull : List ℝ :=
  phiSegments (-π) π [-(π / 2), 0, π / 2]

/-- `RadialBounds::vertices(lseg)` (RadialBounds.cpp lines 65-97): the center
point first when the inner radius is below the on-surface tolerance and the
sector does not cover the full azimuth; then, if `m_rMin > 0`, the lower bow
at `m_rMin` walked from `phi_max` down to `phi_min` (with the closing point
added on the last segment of a sector); then the upper bow at `m_rMax`
walked from `phi_min` up to `phi_max`. -/
def RadialBoundsCpp.vertices (b : RadialBoundsCpp) (lseg : ℕ) : List Vec2 :=
  let center : List Vec2 :=
    if b.m_rMin < s_onSurfaceTolerance ∧ ¬ b.fullAzimuth then [(0, 0)] else []
  let phiSegs : List ℝ :=
    if b.fullAzimuth then phiSegmentsFull
    else phiSegments (b.m_avgPhi - b.m_halfPhi) (b.m_avgPhi + b.m_halfPhi)
      [b.m_avgPhi]
  let lower : List Vec2 :=
    if 0 < b.m_rMin then
      ((List.range (phiSegs.length - 1)).reverse.map fun j =>
        createSegment b.m_rMin (phiSegs.getD (j + 1) 0) (phiSegs.getD j 0)
          lseg (if j = 0 ∧ ¬ b.fullAzimuth then 1 else 0)).flatten
    else []
  let upper : List Vec2 :=
    ((List.range (phiSegs.length - 1)).map fun j =>
      createSegment b.m_rMax (phiSegs.getD j 0) (phiSegs.getD (j + 1) 0)
        lseg (if j = phiSegs.length - 2 ∧ ¬ b.fullAzimuth then 1 else 0)).flatten
  center ++ lower ++ upper

end ActsSpec

namespace ActsSpec

theorem radian_sym_zero : radian_sym 0 = 0 := by
  have h : (⌈(0 : ℝ) / (2 * π) - 1 / 2⌉ : ℤ) = 0 := by
    rw [Int.ceil_eq_zero_iff, zero_div, Set.mem_Ioc]
    norm_num
  unfold radian_sym
  rw [h]
  norm_num

theorem radian_sym_four_ne : radian_sym 4 ≠ 4 := by
  have hπ : (0 : ℝ) < π := Real.pi_pos
  have h4 : π < 4 := by linarith [Real.pi_lt_d2]
  have h3 : (3 : ℝ) < π := Real.pi_gt_three
  have hc : (⌈(4 : ℝ) / (2 * π) - 1 / 2⌉ : ℤ) = 1 := by
    rw [Int.ceil_eq_iff]
    constructor
    · push_cast
      have : (1 : ℝ) / 2 < 4 / (2 * π) := by
        rw [div_lt_div_iff₀ (by norm_num) (by positivity)]
        nlinarith
      linarith
    · push_cast
      have : (4 : ℝ) / (2 * π) ≤ 3 / 2 := by
        rw [div_le_div_iff₀ (by positivity) (by norm_num)]
        nlinarith
      linarith
  unfold radian_sym
  rw [hc]
  push_cast
  intro h
  nlinarith

theorem vec6_val_five (a b c d e f : ℝ) : (![a, b, c, d, e, f] : Fin 6 → ℝ) 5 = f := by
  simp [show (5 : Fin 6) = Fin.succ 4 from rfl, Matrix.cons_val_succ]

theorem vec4_eta (v : Fin 4 → ℝ) : ![v 0, v 1, v 2, v 3] = v := by
  funext i
  fin_cases i <;> simp

theorem rect_mkHalf_eq_some (hx hy : ℝ) (h1 : 0 ≤ hx) (h2 : 0 ≤ hy) :
    RectangleBounds.mkHalf hx hy = some ⟨(-hx, -hy), (hx, hy)⟩ := by
  rw [RectangleBounds.mkHalf, if_pos]
  exact ⟨by simp; linarith, by simp; linarith⟩

theorem rect_mkHalf_eq_none_iff (hx hy : ℝ) :
    RectangleBounds.mkHalf hx hy = none ↔ hx < 0 ∨ hy < 0 := by
  rw [RectangleBounds.mkHalf]
  by_cases h : rectCheckOk (-hx, -hy) (hx, hy)
  · rw [if_pos h]
    obtain ⟨ha, hb⟩ := h
    simp at ha hb ⊢
    exact ⟨ha, hb⟩
  · rw [if_neg h]
    simp only [rectCheckOk, gt_iff_lt, not_and_or, not_not] at h
    simp at h ⊢
    rcases h with h | h
    · left; linarith
    · right; linarith

theorem bcDistance_nonpos (p lo hi : Vec2) (h : bcIsInside p lo hi) :
    bcDistance p lo hi ≤ 0 := by
  rw [bcDistance, if_pos h]
  obtain ⟨h1, h2, h3, h4⟩ := h
  have : 0 ≤ min (min (p.1 - lo.1) (hi.1 - p.1)) (min (p.2 - lo.2) (hi.2 - p.2)) := by
    refine le_min (le_min ?_ ?_) (le_min ?_ ?_) <;> linarith
  linarith

theorem bcDistance_pos (p lo hi : Vec2) (h : ¬ bcIsInside p lo hi) :
    0 < bcDistance p lo hi := by
  rw [bcDistance, if_neg h]
  apply Real.sqrt_pos.mpr
  have hB0 : (0 : ℝ) ≤ max (max (lo.2 - p.2) (p.2 - hi.2)) 0 := le_max_right _ _
  have hA0 : (0 : ℝ) ≤ max (max (lo.1 - p.1) (p.1 - hi.1)) 0 := le_max_right _ _
  have hxA : ∀ t : ℝ, lo.1 - p.1 ≤ t ∨ p.1 - hi.1 ≤ t →
      True := fun _ _ => trivial
  rcases lt_or_le p.1 lo.1 with hx | hx1
  · have hA : 0 < max (max (lo.1 - p.1) (p.1 - hi.1)) 0 :=
      lt_of_lt_of_le (by linarith) (le_trans (le_max_left _ _) (le_max_left _ _))
    exact add_pos_of_pos_of_nonneg (pow_pos hA 2) (sq_nonneg _)
  rcases lt_or_le hi.1 p.1 with hx2 | hx2
  · have hA : 0 < max (max (lo.1 - p.1) (p.1 - hi.1)) 0 :=
      lt_of_lt_of_le (by linarith) (le_trans (le_max_right _ _) (le_max_left _ _))
    exact add_pos_of_pos_of_nonneg (pow_pos hA 2) (sq_nonneg _)
  rcases lt_or_le p.2 lo.2 with hy | hy1
  · have hB : 0 < max (max (lo.2 - p.2) (p.2 - hi.2)) 0 :=
      lt_of_lt_of_le (by linarith) (le_trans (le_max_left _ _) (le_max_left _ _))
    exact add_pos_of_nonneg_of_pos (sq_nonneg _) (pow_pos hB 2)
  rcases lt_or_le hi.2 p.2 with hy2 | hy2
  · have hB : 0 < max (max (lo.2 - p.2) (p.2 - hi.2)) 0 :=
      lt_of_lt_of_le (by linarith) (le_trans (le_max_right _ _) (le_max_left _ _))
    exact add_pos_of_nonneg_of_pos (sq_nonneg _) (pow_pos hB 2)
  · exact absurd ⟨hx1, hx2, hy1, hy2⟩ h

/-- C1 counterexample: the scalar constructor of RadialBounds.hpp only takes
absolute values, so constructing from `minR = 10 > maxR = 5` yields an
instance with `rMin() = 10 > 5 = rMax()` — the claimed ordering invariant is
not established by the header's constructor. -/
theorem radialBounds_ordering_cex :
    ¬ ((RadialBounds.ofScalars 10 5 π 0).rMin ≤ (RadialBounds.ofScalars 10 5 π 0).rMax) := by
  simp [RadialBounds.ofScalars, RadialBounds.rMin, RadialBounds.rMax, RadialBounds.get]
  norm_num

/-- C1 (amended): the header's scalar constructor stores `abs(minR)` and
`abs(maxR)` in place, so `rMin() ≤ rMax()` holds exactly when
`|minR| ≤ |maxR|`; only the stale out-of-line constructor in RadialBounds.cpp
(which belongs to an older class layout) orders the two radii via min/max. -/
theorem radialBounds_ordering_amended :
    (∀ a b hp ap : ℝ,
      (RadialBounds.ofScalars a b hp ap).rMin ≤ (RadialBounds.ofScalars a b hp ap).rMax
        ↔ |a| ≤ |b|) ∧
    (∀ a b ap hp : ℝ,
      (RadialBoundsCpp.mk4 a b ap hp).m_rMin ≤ (RadialBoundsCpp.mk4 a b ap hp).m_rMax) := by
  constructor
  · intro a b hp ap
    simp [RadialBounds.ofScalars, RadialBounds.rMin, RadialBounds.rMax, RadialBounds.get]
  · intro a b ap hp
    exact min_le_max

/-- C1 witness: the ordering criterion evaluated on concrete inputs —
`RadialBounds(3, 7, π, 0)` from the header is ordered since `|3| ≤ |7|`, and
the RadialBounds.cpp constructor orders even the swapped pair `(9, 4)`. -/
theorem radialBounds_ordering_amended_witness :
    (RadialBounds.ofScalars 3 7 π 0).rMin ≤ (RadialBounds.ofScalars 3 7 π 0).rMax ∧
    (RadialBoundsCpp.mk4 9 4 0 π).m_rMin ≤ (RadialBoundsCpp.mk4 9 4 0 π).m_rMax :=
  ⟨(radialBounds_ordering_amended.1 3 7 π 0).mpr (by norm_num),
   radialBounds_ordering_amended.2 9 4 0 π⟩

/-- C2 counterexample: the fixed-size-array constructor of DiamondBounds.hpp
runs no consistency check, so the invariant-violating parameter array
`{5, 3, 5, 2, 2}` (end half-widths 5 exceeding the mid half-width 3)
constructs successfully rather than failing. -/
theorem diamondBounds_arrayCtor_cex :
    DiamondBounds.mkArray ![5, 3, 5, 2, 2] =
      some ⟨![5, 3, 5, 2, 2], ⟨(-5, -2), (5, 2)⟩⟩ := by
  rw [DiamondBounds.mkArray]
  have h1 : max ((![5, 3, 5, 2, 2] : Fin 5 → ℝ) 0) ((![5, 3, 5, 2, 2] : Fin 5 → ℝ) 1) = 5 := by
    norm_num
  have h2 : max ((![5, 3, 5, 2, 2] : Fin 5 → ℝ) 3) ((![5, 3, 5, 2, 2] : Fin 5 → ℝ) 4) = 2 := by
    norm_num
  rw [h1, h2, rect_mkHalf_eq_some 5 2 (by norm_num) (by norm_num)]
  rfl

/-- C2 (amended): only the five-scalar constructor of DiamondBounds enforces
the invariants — it fails exactly when `checkConsistency` would throw; the
fixed-size-array constructor runs no consistency check and fails only when
the eagerly built bounding box is degenerate (a negative maximum over the two
lower x half-lengths or over the two y half-lengths). -/
theorem diamondBounds_ctor_checks :
    (∀ a b c d e : ℝ,
      DiamondBounds.mk5 a b c d e = none ↔ ¬ diamondCheckOk ![a, b, c, d, e]) ∧
    (∀ v : Fin 5 → ℝ,
      DiamondBounds.mkArray v = none ↔ max (v 0) (v 1) < 0 ∨ max (v 3) (v 4) < 0) := by
  constructor
  · intro a b c d e
    rw [DiamondBounds.mk5]
    by_cases hbb : max a b < 0 ∨ max d e < 0
    · rw [(rect_mkHalf_eq_none_iff _ _).2 hbb]
      simp only [Option.none_bind, true_iff]
      intro hok
      obtain ⟨hneg, _⟩ := hok
      rcases hbb with hb1 | hb2
      · exact hneg (Or.inl (by simpa using lt_of_le_of_lt (le_max_left a b) hb1))
      · exact hneg (Or.inr (Or.inr (Or.inr (Or.inl
          (by simpa using lt_of_le_of_lt (le_max_left d e) hb2)))))
    · push_neg at hbb
      rw [rect_mkHalf_eq_some _ _ hbb.1 hbb.2]
      by_cases hc : diamondCheckOk ![a, b, c, d, e]
      · simp [hc]
      · simp [hc]
  · intro v
    rw [DiamondBounds.mkArray, ← rect_mkHalf_eq_none_iff]
    cases h : RectangleBounds.mkHalf (max (v 0) (v 1)) (max (v 3) (v 4)) <;> simp

/-- C2 witness: the failure criteria evaluated on concrete inputs — the
five-scalar constructor rejects `(4, 2, 4, 1, 1)` (end half-widths exceed
the mid half-width) and the array constructor rejects `{-1, -2, 0, 1, 1}`
(degenerate bounding box). -/
theorem diamondBounds_ctor_checks_witness :
    DiamondBounds.mk5 4 2 4 1 1 = none ∧
    DiamondBounds.mkArray ![-1, -2, 0, 1, 1] = none := by
  constructor
  · refine (diamondBounds_ctor_checks.1 4 2 4 1 1).mpr ?_
    intro h
    exact h.2 (Or.inl (by norm_num))
  · refine (diamondBounds_ctor_checks.2 ![-1, -2, 0, 1, 1]).mpr (Or.inl ?_)
    norm_num

/-- C4: `rCenter()` and `halfLengthY()` of DiscTrapezoidBounds use the half
length in x at the minimum radius for both the min-radius and the max-radius
term; the half length in x at the maximum radius (slot `eHalfLengthXmaxR = 1`)
enters neither formula, as shown by invariance under changing that slot. -/
theorem discTrapezoidBounds_rCenter_halfLengthY (b : DiscTrapezoidBounds) (t : ℝ) :
    b.rCenter = 0.5 * (Real.sqrt (b.get 2 ^ 2 - b.get 0 ^ 2) +
      Real.sqrt (b.get 3 ^ 2 - b.get 0 ^ 2)) ∧
    b.halfLengthY = 0.5 * (Real.sqrt (b.get 3 ^ 2 - b.get 0 ^ 2) -
      Real.sqrt (b.get 2 ^ 2 - b.get 0 ^ 2)) ∧
    DiscTrapezoidBounds.rCenter ⟨Function.update b.m_values 1 t⟩ = b.rCenter ∧
    DiscTrapezoidBounds.halfLengthY ⟨Function.update b.m_values 1 t⟩ = b.halfLengthY := by
  have hu : ∀ i : Fin 6, i ≠ 1 →
      DiscTrapezoidBounds.get ⟨Function.update b.m_values 1 t⟩ i = b.get i := by
    intro i hi
    simp [DiscTrapezoidBounds.get, Function.update_noteq hi]
  refine ⟨?_, ?_, ?_, ?_⟩
  · rw [DiscTrapezoidBounds.rCenter]
    have e2 : b.get 2 * b.get 2 - b.get 0 * b.get 0 = b.get 2 ^ 2 - b.get 0 ^ 2 := by ring
    have e3 : b.get 3 * b.get 3 - b.get 0 * b.get 0 = b.get 3 ^ 2 - b.get 0 ^ 2 := by ring
    rw [e2, e3]
  · rw [DiscTrapezoidBounds.halfLengthY]
    have e2 : b.get 2 * b.get 2 - b.get 0 * b.get 0 = b.get 2 ^ 2 - b.get 0 ^ 2 := by ring
    have e3 : b.get 3 * b.get 3 - b.get 0 * b.get 0 = b.get 3 ^ 2 - b.get 0 ^ 2 := by ring
    rw [e2, e3]
  · rw [DiscTrapezoidBounds.rCenter, DiscTrapezoidBounds.rCenter,
      hu 2 (by decide), hu 3 (by decide), hu 0 (by decide)]
  · rw [DiscTrapezoidBounds.halfLengthY, DiscTrapezoidBounds.halfLengthY,
      hu 2 (by decide), hu 3 (by decide), hu 0 (by decide)]

/-- C6: the scalar constructor of RadialBounds.hpp stores its arguments in
parameter order `{abs(minR), abs(maxR), abs(halfPhi), radian_sym(avgPhi)}`
while the enumeration expects `{eMinR, eMaxR, eAveragePhi, eHalfPhiSector}`,
so `RadialBounds(5, 15, π)` puts `π` into the average-phi slot (index 2) and
`radian_sym(0) = 0` into the half-phi-sector slot (index 3);
`coversFullAzimuth()`, which compares slot 3 with `π`, therefore returns
false on this instance, contradicting the claim and the constructor's own
parameter documentation. -/
theorem radialBounds_coversFullAzimuth_bug :
    ¬ (RadialBounds.ofScalars 5 15 π 0).coversFullAzimuth ∧
    (RadialBounds.ofScalars 5 15 π 0).get 2 = π ∧
    (RadialBounds.ofScalars 5 15 π 0).get 3 = 0 := by
  refine ⟨?_, ?_, ?_⟩
  · simp [RadialBounds.coversFullAzimuth, RadialBounds.ofScalars, RadialBounds.get,
      radian_sym_zero]
    exact fun h => Real.pi_ne_zero h.symm
  · simp [RadialBounds.ofScalars, RadialBounds.get, abs_of_nonneg Real.pi_pos.le]
  · simp [RadialBounds.ofScalars, RadialBounds.get, radian_sym_zero]

/-- C8: the three invariant-violating constructions named by the spec all
fail: a RectangleBounds with `min.x = 2 > 1 = max.x`, the five-scalar
`DiamondBounds(5, 3, 5, 2, 2)`, and an EllipseBounds with
`halfPhiSector = 4 > π`. -/
theorem invariantRejection_triple :
    RectangleBounds.mkMinMax (2, 0) (1, 5) = none ∧
    DiamondBounds.mk5 5 3 5 2 2 = none ∧
    EllipseBounds.mk6 1 2 1 2 4 0 = none := by
  refine ⟨?_, ?_, ?_⟩
  · rw [RectangleBounds.mkMinMax, if_neg]
    intro h
    exact h.1 (by norm_num)
  · rw [DiamondBounds.mk5, rect_mkHalf_eq_some (max 5 3) (max 2 2) (by norm_num) (by norm_num)]
    rw [Option.some_bind, if_neg]
    intro h
    exact h.2 (Or.inl (by norm_num))
  · rw [EllipseBounds.mk6, EllipseBounds.mkVals]
    have h1 : (![1, 2, 1, 2, 4, 0] : Fin 6 → ℝ) 1 = 2 := by norm_num
    have h3 : (![1, 2, 1, 2, 4, 0] : Fin 6 → ℝ) 3 = 2 := by norm_num
    rw [h1, h3, rect_mkHalf_eq_some 2 2 (by norm_num) (by norm_num), Option.some_bind, if_neg]
    intro h
    refine h.2.2.1 (Or.inr ?_)
    have h4 : (![1, 2, 1, 2, 4, 0] : Fin 6 → ℝ) 4 = 4 := by norm_num
    rw [h4]
    linarith [Real.pi_lt_d2]

/-- C10: `RectangleBounds::get` is total over the int-backed index type: it
returns the stored min corner coordinates for `eMinX = 0` and `eMinY = 1`,
the max corner x for `eMaxX = 2`, and the max corner y for every other index
value — `eMaxY = 3`, but also out-of-range values such as `eSize = 4` or any
other integer. -/
theorem rectangleBounds_get_total (b : RectangleBounds) (i : ℤ) :
    b.get 0 = b.m_min.1 ∧ b.get 1 = b.m_min.2 ∧ b.get 2 = b.m_max.1 ∧
    b.get 3 = b.m_max.2 ∧ b.get 4 = b.m_max.2 ∧
    (i ≠ 0 → i ≠ 1 → i ≠ 2 → b.get i = b.m_max.2) := by
  refine ⟨by simp [RectangleBounds.get], by simp [RectangleBounds.get],
    by simp [RectangleBounds.get], by simp [RectangleBounds.get],
    by simp [RectangleBounds.get], ?_⟩
  intro h0 h1 h2
  simp [RectangleBounds.get, h0, h1, h2]

/-- C10 witness: on a concrete rectangle, `get` applied to the out-of-range
index 7 returns the stored max corner y coordinate. -/
theorem rectangleBounds_get_total_witness :
    RectangleBounds.get ⟨(-1, -2), (3, 4)⟩ 7 = 4 := by
  have h := (rectangleBounds_get_total ⟨(-1, -2), (3, 4)⟩ 7).2.2.2.2.2
    (by norm_num) (by norm_num) (by norm_num)
  simpa using h

theorem radial_vertices_sector_eq (b : RadialBoundsCpp) (lseg : ℕ)
    (hfull : ¬ b.fullAzimuth) :
    b.vertices lseg =
      (if b.m_rMin < s_onSurfaceTolerance then [((0 : ℝ), (0 : ℝ))] else []) ++
      ((if 0 < b.m_rMin then
        createSegment b.m_rMin (b.m_avgPhi + b.m_halfPhi) b.m_avgPhi lseg 0 ++
        createSegment b.m_rMin b.m_avgPhi (b.m_avgPhi - b.m_halfPhi) lseg 1
       else []) ++
      (createSegment b.m_rMax (b.m_avgPhi - b.m_halfPhi) b.m_avgPhi lseg 0 ++
       createSegment b.m_rMax b.m_avgPhi (b.m_avgPhi + b.m_halfPhi) lseg 1)) := by
  rw [RadialBoundsCpp.vertices]
  simp [hfull, phiSegments, List.range_succ]

/-- C3 counterexample: for the annulus sector `RadialBounds(1, 2, 0, π/2)` of
RadialBounds.cpp, the first tessellation vertex is `(0, 1)`, the start of the
inner arc at radius `rMin = 1` and angle `avgPhi + halfPhi = π/2`; it is not
the start of the outer arc at `avgPhi − halfPhi` (which would be `(0, -2)`),
so `vertices` does not walk the outer arc first as claimed. -/
theorem radialBoundsCpp_vertices_order_cex :
    ((RadialBoundsCpp.mk4 1 2 0 (π / 2)).vertices 1).head? = some ((0 : ℝ), (1 : ℝ)) ∧
    ((RadialBoundsCpp.mk4 1 2 0 (π / 2)).vertices 1).head? ≠
      some (arcPoint (RadialBoundsCpp.mk4 1 2 0 (π / 2)).m_rMax
        ((RadialBoundsCpp.mk4 1 2 0 (π / 2)).m_avgPhi -
         (RadialBoundsCpp.mk4 1 2 0 (π / 2)).m_halfPhi)) := by
  have hb : RadialBoundsCpp.mk4 1 2 0 (π / 2) = ⟨1, 2, 0, π / 2⟩ := by
    rw [RadialBoundsCpp.mk4, radian_sym_zero,
      abs_of_nonneg (by positivity : (0 : ℝ) ≤ π / 2)]
    norm_num
  have hfull : ¬ (⟨1, 2, 0, π / 2⟩ : RadialBoundsCpp).fullAzimuth := by
    simp only [RadialBoundsCpp.fullAzimuth]
    intro h
    have := Real.pi_pos
    linarith [h]
  have hhead : ((RadialBoundsCpp.mk4 1 2 0 (π / 2)).vertices 1).head? =
      some ((0 : ℝ), (1 : ℝ)) := by
    rw [hb, radial_vertices_sector_eq ⟨1, 2, 0, π / 2⟩ 1 hfull]
    rw [if_neg (by norm_num [s_onSurfaceTolerance]), if_pos (by norm_num)]
    simp [createSegment, List.range_succ, arcPoint]
  refine ⟨hhead, ?_⟩
  rw [hhead, hb]
  simp only [RadialBoundsCpp.m_rMax, RadialBoundsCpp.m_avgPhi, RadialBoundsCpp.m_halfPhi]
  rw [show (0 : ℝ) - π / 2 = -(π / 2) by ring]
  simp [arcPoint, Real.cos_neg, Real.sin_neg, Prod.ext_iff]
  intro h
  norm_num at h

/-- C3 (amended): `vertices(segmentCount)` of RadialBounds.cpp, for a sector
(not full azimuth), emits the center point `(0, 0)` first exactly when
`minR` is below the on-surface tolerance, then (if `minR > 0`) walks the
inner arc in reverse from `avgPhi + halfPhiSector` down to
`avgPhi − halfPhiSector`, and only then the outer arc from
`avgPhi − halfPhiSector` up to `avgPhi + halfPhiSector` — the inner arc
comes before the outer arc, not after it. -/
theorem radialBoundsCpp_vertices_order (b : RadialBoundsCpp) (lseg : ℕ)
    (hfull : ¬ b.fullAzimuth) :
    b.vertices lseg =
      (if b.m_rMin < s_onSurfaceTolerance then [((0 : ℝ), (0 : ℝ))] else []) ++
      ((if 0 < b.m_rMin then
        createSegment b.m_rMin (b.m_avgPhi + b.m_halfPhi) b.m_avgPhi lseg 0 ++
        createSegment b.m_rMin b.m_avgPhi (b.m_avgPhi - b.m_halfPhi) lseg 1
       else []) ++
      (createSegment b.m_rMax (b.m_avgPhi - b.m_halfPhi) b.m_avgPhi lseg 0 ++
       createSegment b.m_rMax b.m_avgPhi (b.m_avgPhi + b.m_halfPhi) lseg 1)) :=
  radial_vertices_sector_eq b lseg hfull

/-- C3 witness: the walk decomposition evaluated on the concrete sector
`RadialBounds(1, 3, 0, π/3)` with two segments per arc. -/
theorem radialBoundsCpp_vertices_order_witness :
    (RadialBoundsCpp.mk4 1 3 0 (π / 3)).vertices 2 =
      (if (RadialBoundsCpp.mk4 1 3 0 (π / 3)).m_rMin < s_onSurfaceTolerance then
        [((0 : ℝ), (0 : ℝ))] else []) ++
      ((if 0 < (RadialBoundsCpp.mk4 1 3 0 (π / 3)).m_rMin then
        createSegment (RadialBoundsCpp.mk4 1 3 0 (π / 3)).m_rMin
          ((RadialBoundsCpp.mk4 1 3 0 (π / 3)).m_avgPhi +
           (RadialBoundsCpp.mk4 1 3 0 (π / 3)).m_halfPhi)
          (RadialBoundsCpp.mk4 1 3 0 (π / 3)).m_avgPhi 2 0 ++
        createSegment (RadialBoundsCpp.mk4 1 3 0 (π / 3)).m_rMin
          (RadialBoundsCpp.mk4 1 3 0 (π / 3)).m_avgPhi
          ((RadialBoundsCpp.mk4 1 3 0 (π / 3)).m_avgPhi -
           (RadialBoundsCpp.mk4 1 3 0 (π / 3)).m_halfPhi) 2 1
       else []) ++
      (createSegment (RadialBoundsCpp.mk4 1 3 0 (π / 3)).m_rMax
        ((RadialBoundsCpp.mk4 1 3 0 (π / 3)).m_avgPhi -
         (RadialBoundsCpp.mk4 1 3 0 (π / 3)).m_halfPhi)
        (RadialBoundsCpp.mk4 1 3 0 (π / 3)).m_avgPhi 2 0 ++
       createSegment (RadialBoundsCpp.mk4 1 3 0 (π / 3)).m_rMax
        (RadialBoundsCpp.mk4 1 3 0 (π / 3)).m_avgPhi
        ((RadialBoundsCpp.mk4 1 3 0 (π / 3)).m_avgPhi +
         (RadialBoundsCpp.mk4 1 3 0 (π / 3)).m_halfPhi) 2 1)) := by
  refine radialBoundsCpp_vertices_order (RadialBoundsCpp.mk4 1 3 0 (π / 3)) 2 ?_
  simp only [RadialBoundsCpp.fullAzimuth, RadialBoundsCpp.mk4]
  rw [abs_of_nonneg (by positivity : (0 : ℝ) ≤ π / 3)]
  intro h
  have := Real.pi_pos
  linarith [h]

/-- C5: with the zero-tolerance boundary-check policy, `inside` and
`distanceToBoundary` are consistent for RectangleBounds and for the
RadialBounds implementation of RadialBounds.cpp: both evaluate the same
(shifted) point against the same box, so `inside` true gives a non-positive
distance and `inside` false a strictly positive one. -/
theorem inside_distanceToBoundary_consistency (rb : RectangleBounds)
    (db : RadialBoundsCpp) (p q : Vec2) :
    (rb.inside p → rb.distanceToBoundary p ≤ 0) ∧
    (¬ rb.inside p → 0 < rb.distanceToBoundary p) ∧
    (db.inside q → db.distanceToBoundary q ≤ 0) ∧
    (¬ db.inside q → 0 < db.distanceToBoundary q) :=
  ⟨fun h => bcDistance_nonpos _ _ _ h, fun h => bcDistance_pos _ _ _ h,
   fun h => bcDistance_nonpos _ _ _ h, fun h => bcDistance_pos _ _ _ h⟩

/-- C5 witness: concrete evaluations on a rectangle `[-10,10] × [-5,5]` at an
inside point `(0,0)` and an outside point `(15,0)`, and on a radial annulus
`[1,2]` with full phi range at an inside point `(r, phi) = (1.5, 0)` and an
outside point `(3, 0)`. -/
theorem inside_distanceToBoundary_consistency_witness :
    RectangleBounds.distanceToBoundary ⟨(-10, -5), (10, 5)⟩ (0, 0) ≤ 0 ∧
    0 < RectangleBounds.distanceToBoundary ⟨(-10, -5), (10, 5)⟩ (15, 0) ∧
    (RadialBoundsCpp.mk4 1 2 0 π).distanceToBoundary (1.5, 0) ≤ 0 ∧
    0 < (RadialBoundsCpp.mk4 1 2 0 π).distanceToBoundary (3, 0) := by
  refine ⟨?_, ?_, ?_, ?_⟩
  · refine (inside_distanceToBoundary_consistency ⟨(-10, -5), (10, 5)⟩
      (RadialBoundsCpp.mk4 1 2 0 π) (0, 0) (0, 0)).1 ?_
    refine ⟨by norm_num, by norm_num, by norm_num, by norm_num⟩
  · refine (inside_distanceToBoundary_consistency ⟨(-10, -5), (10, 5)⟩
      (RadialBoundsCpp.mk4 1 2 0 π) (15, 0) (0, 0)).2.1 ?_
    intro h
    exact absurd h.2.1 (by norm_num)
  · refine (inside_distanceToBoundary_consistency ⟨(-10, -5), (10, 5)⟩
      (RadialBoundsCpp.mk4 1 2 0 π) (0, 0) (1.5, 0)).2.2.1 ?_
    refine ⟨by norm_num [RadialBoundsCpp.mk4, RadialBoundsCpp.shifted],
      by norm_num [RadialBoundsCpp.mk4, RadialBoundsCpp.shifted], ?_, ?_⟩
    · show -(RadialBoundsCpp.mk4 1 2 0 π).m_halfPhi ≤ radian_sym ((1.5, (0 : ℝ)).2 - _)
      simp [RadialBoundsCpp.mk4, radian_sym_zero, abs_of_nonneg Real.pi_pos.le]
      exact Real.pi_pos.le
    · show radian_sym ((1.5, (0 : ℝ)).2 - _) ≤ (RadialBoundsCpp.mk4 1 2 0 π).m_halfPhi
      simp [RadialBoundsCpp.mk4, radian_sym_zero, abs_of_nonneg Real.pi_pos.le]
      exact Real.pi_pos.le
  · refine (inside_distanceToBoundary_consistency ⟨(-10, -5), (10, 5)⟩
      (RadialBoundsCpp.mk4 1 2 0 π) (0, 0) (3, 0)).2.2.2 ?_
    intro h
    have h2 := h.2.1
    simp [RadialBoundsCpp.mk4, RadialBoundsCpp.shifted] at h2
    norm_num at h2

/-- C7: both EllipseBounds constructors reject an average phi that is not
already equal to its own `radian_sym` image, and therefore every
successfully constructed EllipseBounds stores an average phi that is a fixed
point of the periodic normalization. -/
theorem ellipseBounds_averagePhi_normalized :
    (∀ v : Fin 6 → ℝ, v 5 ≠ radian_sym (v 5) → EllipseBounds.mkVals v = none) ∧
    (∀ v : Fin 6 → ℝ, ∀ e : EllipseBounds, EllipseBounds.mkArray v = some e →
      e.get 5 = radian_sym (e.get 5)) ∧
    (∀ a0 a1 a2 a3 a4 a5 : ℝ, ∀ e : EllipseBounds,
      EllipseBounds.mk6 a0 a1 a2 a3 a4 a5 = some e →
      e.get 5 = radian_sym (e.get 5)) := by
  have hvals : ∀ v : Fin 6 → ℝ, ∀ e : EllipseBounds, EllipseBounds.mkVals v = some e →
      e.get 5 = radian_sym (e.get 5) := by
    intro v e h
    rw [EllipseBounds.mkVals] at h
    cases hbb : RectangleBounds.mkHalf (v 1) (v 3) with
    | none => rw [hbb] at h; simp at h
    | some bb =>
      rw [hbb, Option.some_bind] at h
      by_cases hc : ellipseCheckOk v
      · rw [if_pos hc] at h
        obtain ⟨_, _, _, h5⟩ := hc
        rw [not_not] at h5
        cases h
        exact h5
      · rw [if_neg hc] at h
        exact absurd h (by simp)
  refine ⟨?_, fun v => hvals v, fun a0 a1 a2 a3 a4 a5 => hvals ![a0, a1, a2, a3, a4, a5]⟩
  intro v h5
  rw [EllipseBounds.mkVals]
  cases hbb : RectangleBounds.mkHalf (v 1) (v 3) with
  | none => simp
  | some bb =>
    rw [Option.some_bind, if_neg]
    intro hc
    exact hc.2.2.2 h5

/-- C7 witness: the constructor rejects average phi `4` (whose `radian_sym`
image is `4 - 2π ≠ 4`), accepts the pre-normalized average phi `0`, and the
accepted instance stores a fixed point of `radian_sym`. -/
theorem ellipseBounds_averagePhi_normalized_witness :
    EllipseBounds.mk6 1 2 1 2 1 4 = none ∧
    EllipseBounds.mk6 1 2 1 2 π 0 = some ⟨![1, 2, 1, 2, π, 0], ⟨(-2, -2), (2, 2)⟩⟩ ∧
    EllipseBounds.get ⟨![1, 2, 1, 2, π, 0], ⟨(-2, -2), (2, 2)⟩⟩ 5 =
      radian_sym (EllipseBounds.get ⟨![1, 2, 1, 2, π, 0], ⟨(-2, -2), (2, 2)⟩⟩ 5) := by
  have hsome : EllipseBounds.mk6 1 2 1 2 π 0 =
      some ⟨![1, 2, 1, 2, π, 0], ⟨(-2, -2), (2, 2)⟩⟩ := by
    rw [EllipseBounds.mk6, EllipseBounds.mkVals]
    have h1 : (![1, 2, 1, 2, π, 0] : Fin 6 → ℝ) 1 = 2 := by norm_num
    have h3 : (![1, 2, 1, 2, π, 0] : Fin 6 → ℝ) 3 = 2 := by norm_num
    rw [h1, h3, rect_mkHalf_eq_some 2 2 (by norm_num) (by norm_num), Option.some_bind, if_pos]
    refine ⟨by norm_num, by norm_num, ?_, ?_⟩
    · intro h
      have h4 : (![1, 2, 1, 2, π, 0] : Fin 6 → ℝ) 4 = π := by norm_num
      rcases h with h | h <;> rw [h4] at h
      · exact absurd h (not_lt.mpr Real.pi_pos.le)
      · exact absurd h (lt_irrefl π)
    · rw [not_not, vec6_val_five, radian_sym_zero]
  refine ⟨?_, hsome, ?_⟩
  · refine ellipseBounds_averagePhi_normalized.1 ![1, 2, 1, 2, 1, 4] ?_
    rw [vec6_val_five]
    exact fun h => radian_sym_four_ne h.symm
  · exact ellipseBounds_averagePhi_normalized.2.2 1 2 1 2 π 0 _ hsome

/-- C9: for every shape, the array constructor applied to the `values()`
sequence of a valid instance succeeds and reproduces the same `values()`
sequence; for RadialBounds and DiscTrapezoidBounds the array constructor
stores unchecked, for RectangleBounds and EllipseBounds success needs the
instance's own invariants, and for DiamondBounds only the derived bounding
box condition (implied by validity) is rechecked. -/
theorem values_roundtrip (rb : RectangleBounds) (db : DiamondBounds)
    (eb : EllipseBounds) (ab : RadialBounds) (tb : DiscTrapezoidBounds) :
    (rectCheckOk rb.m_min rb.m_max →
      (RectangleBounds.mkArray rb.valuesArr).map RectangleBounds.valuesArr =
        some rb.valuesArr) ∧
    (diamondCheckOk db.m_values →
      (DiamondBounds.mkArray db.valuesArr).map DiamondBounds.valuesArr =
        some db.valuesArr) ∧
    (0 ≤ eb.m_values 1 → 0 ≤ eb.m_values 3 → ellipseCheckOk eb.m_values →
      (EllipseBounds.mkArray eb.valuesArr).map EllipseBounds.valuesArr =
        some eb.valuesArr) ∧
    (RadialBounds.mkArray ab.valuesArr).valuesArr = ab.valuesArr ∧
    (DiscTrapezoidBounds.mkArray tb.valuesArr).valuesArr = tb.valuesArr := by
  refine ⟨?_, ?_, ?_, rfl, rfl⟩
  · intro h
    rw [RectangleBounds.mkArray]
    have hv0 : rb.valuesArr 0 = rb.m_min.1 := by simp [RectangleBounds.valuesArr]
    have hv1 : rb.valuesArr 1 = rb.m_min.2 := by simp [RectangleBounds.valuesArr]
    have hv2 : rb.valuesArr 2 = rb.m_max.1 := by simp [RectangleBounds.valuesArr]
    have hv3 : rb.valuesArr 3 = rb.m_max.2 := by simp [RectangleBounds.valuesArr]
    rw [hv0, hv1, hv2, hv3, Prod.mk.eta, Prod.mk.eta, if_pos h]
    rfl
  · intro h
    obtain ⟨hneg, _⟩ := h
    push_neg at hneg
    obtain ⟨h0, _, _, h3, _⟩ := hneg
    rw [DiamondBounds.mkArray]
    have hb1 : (0 : ℝ) ≤ max (db.valuesArr 0) (db.valuesArr 1) :=
      le_trans h0 (le_max_left _ _)
    have hb2 : (0 : ℝ) ≤ max (db.valuesArr 3) (db.valuesArr 4) :=
      le_trans h3 (le_max_left _ _)
    rw [rect_mkHalf_eq_some _ _ hb1 hb2]
    rfl
  · intro h1 h3 hc
    simp only [EllipseBounds.mkArray, EllipseBounds.mkVals, EllipseBounds.valuesArr]
    rw [rect_mkHalf_eq_some _ _ h1 h3, Option.some_bind, if_pos hc]
    rfl

/-- C9 witness: the round trip evaluated on one concrete valid instance of
each of the five shapes. -/
theorem values_roundtrip_witness :
    (RectangleBounds.mkArray (RectangleBounds.valuesArr ⟨(-1, -2), (3, 4)⟩)).map
      RectangleBounds.valuesArr = some (RectangleBounds.valuesArr ⟨(-1, -2), (3, 4)⟩) ∧
    (DiamondBounds.mkArray (DiamondBounds.valuesArr ⟨![1, 3, 1, 2, 2], ⟨(-3, -2), (3, 2)⟩⟩)).map
      DiamondBounds.valuesArr =
      some (DiamondBounds.valuesArr ⟨![1, 3, 1, 2, 2], ⟨(-3, -2), (3, 2)⟩⟩) ∧
    (EllipseBounds.mkArray (EllipseBounds.valuesArr ⟨![1, 2, 1, 2, π, 0], ⟨(-2, -2), (2, 2)⟩⟩)).map
      EllipseBounds.valuesArr =
      some (EllipseBounds.valuesArr ⟨![1, 2, 1, 2, π, 0], ⟨(-2, -2), (2, 2)⟩⟩) ∧
    (RadialBounds.mkArray (RadialBounds.valuesArr ⟨![5, 15, 0, π]⟩)).valuesArr =
      RadialBounds.valuesArr ⟨![5, 15, 0, π]⟩ ∧
    (DiscTrapezoidBounds.mkArray (DiscTrapezoidBounds.valuesArr ⟨![1, 2, 3, 4, 0, 0]⟩)).valuesArr =
      DiscTrapezoidBounds.valuesArr ⟨![1, 2, 3, 4, 0, 0]⟩ := by
  have h := values_roundtrip ⟨(-1, -2), (3, 4)⟩ ⟨![1, 3, 1, 2, 2], ⟨(-3, -2), (3, 2)⟩⟩
    ⟨![1, 2, 1, 2, π, 0], ⟨(-2, -2), (2, 2)⟩⟩ ⟨![5, 15, 0, π]⟩ ⟨![1, 2, 3, 4, 0, 0]⟩
  refine ⟨h.1 ⟨by norm_num, by norm_num⟩, h.2.1 ?_, h.2.2.1 (by norm_num) (by norm_num) ?_,
    h.2.2.2.1, h.2.2.2.2⟩
  · constructor
    · intro hcon
      rcases hcon with hc | hc | hc | hc | hc <;> norm_num at hc
    · intro hcon
      rcases hcon with hc | hc <;> norm_num at hc
  · refine ⟨by norm_num, by norm_num, ?_, ?_⟩
    · intro hcon
      have h4 : (⟨![1, 2, 1, 2, π, 0], ⟨(-2, -2), (2, 2)⟩⟩ : EllipseBounds).m_values 4 = π := by
        show (![1, 2, 1, 2, π, 0] : Fin 6 → ℝ) 4 = π
        norm_num
      rcases hcon with hc | hc <;> rw [h4] at hc
      · exact absurd hc (not_lt.mpr Real.pi_pos.le)
      · exact absurd hc (lt_irrefl π)
    · rw [not_not]
      show (![1, 2, 1, 2, π, 0] : Fin 6 → ℝ) 5 = radian_sym ((![1, 2, 1, 2, π, 0] : Fin 6 → ℝ) 5)
      rw [vec6_val_five, radian_sym_zero]

end ActsSpec
